import Mathlib

/-!
Verification of the card-game rules engine and session layer of the
rug-oop-cardgame-server repository.  The Rust source in src/cards.rs,
src/game.rs and src/server.rs is shallowly embedded: mutation becomes
explicit state passing, a Rust panic or unreachable branch is modelled
as an Option none, and a Result value is an Except value.
-/

deriving instance DecidableEq for Except

namespace CardGame

/-- Card suits, as in src/cards.rs.  Blank is the filler suit used to pad
the stock pile. -/
inductive Suit where
  | Heart | Spade | Club | Diamond | Blank
  deriving DecidableEq

/-- Card ranks, as in src/cards.rs (discriminants King = 13 down to Ace = 1). -/
inductive Rank where
  | King | Queen | Jack | Ten | Nine | Eight | Seven | Six | Five | Four | Three | Two | Ace
  deriving DecidableEq

/-- Rank.down from src/cards.rs: cyclic predecessor, Ace wraps to King. -/
def Rank.down : Rank → Rank
  | .King => .Queen
  | .Queen => .Jack
  | .Jack => .Ten
  | .Ten => .Nine
  | .Nine => .Eight
  | .Eight => .Seven
  | .Seven => .Six
  | .Six => .Five
  | .Five => .Four
  | .Four => .Three
  | .Three => .Two
  | .Two => .Ace
  | .Ace => .King

/-- Rank.up from src/cards.rs: cyclic successor, King wraps to Ace. -/
def Rank.up : Rank → Rank
  | .King => .Ace
  | .Queen => .King
  | .Jack => .Queen
  | .Ten => .Jack
  | .Nine => .Ten
  | .Eight => .Nine
  | .Seven => .Eight
  | .Six => .Seven
  | .Five => .Six
  | .Four => .Five
  | .Three => .Four
  | .Two => .Three
  | .Ace => .Two

/-- The thirteen ranks, in the order of Rank::iter in src/cards.rs. -/
def allRanks : List Rank :=
  [.King, .Queen, .Jack, .Ten, .Nine, .Eight, .Seven, .Six, .Five, .Four, .Three, .Two, .Ace]

/-- A playing card: suit and rank (src/cards.rs). -/
structure Card where
  suit : Suit
  rank : Rank
  deriving DecidableEq

/-- An ordered pile of cards; the Rust Vec pushes at the end, so the last
list element is the top of the pile (src/cards.rs). -/
structure Pile where
  cards : List Card
  deriving DecidableEq

/-- Pile::count (the Rust u32 cast never truncates for game-sized piles). -/
def Pile.count (p : Pile) : Nat := p.cards.length

/-- Pile::contains_rank. -/
def Pile.contains_rank (p : Pile) (r : Rank) : Bool := p.cards.any (fun c => c.rank == r)

/-- Pile::add: push one card on top. -/
def Pile.add (p : Pile) (c : Card) : Pile := ⟨p.cards ++ [c]⟩

/-- Pile::add_pile: append another pile's cards on top. -/
def Pile.add_pile (p q : Pile) : Pile := ⟨p.cards ++ q.cards⟩

/-- Pile::is_empty. -/
def Pile.is_empty (p : Pile) : Bool := p.cards.isEmpty

/-- Pile::take_card: remove the first card equal to the argument, reporting
whether one was found (Rust position + remove equals List.erase). -/
def Pile.take_card (p : Pile) (c : Card) : Bool × Pile :=
  (p.cards.contains c, ⟨p.cards.erase c⟩)

/-- Pile::take_up_to_n: split off the top n cards (all of them when fewer
exist); first component is the taken pile, second the remainder. -/
def Pile.take_up_to_n (p : Pile) (n : Nat) : Pile × Pile :=
  (⟨p.cards.drop (p.cards.length - n)⟩, ⟨p.cards.take (p.cards.length - n)⟩)

/-- A pile tagged with a fixed special card that governs what may be placed
on it (src/cards.rs SpecialPile). -/
structure SpecialPile where
  special_card : Card
  cards : Pile
  deriving DecidableEq

/-- SpecialPile::new: fresh pile holding only its special card. -/
def SpecialPile.new (c : Card) : SpecialPile := ⟨c, ⟨[]⟩⟩

/-- The turn phase within a round (src/game.rs TurnState). -/
inductive TurnState where
  | Attack | Organize
  deriving DecidableEq

/-- Current player plus turn phase (src/game.rs RoundState).  The Rust u8
player index is modelled as a Nat. -/
structure RoundState where
  player : Nat
  turn_state : TurnState
  deriving DecidableEq

/-- The three house-pile slots (src/game.rs HousePile). -/
inductive HousePile where
  | One | Two | Three
  deriving DecidableEq

/-- A pile a card can be added to: the king pile or a house-pile slot
(src/game.rs PlayerPile). -/
inductive PlayerPile where
  | KingPile
  | HousePile (h : CardGame.HousePile)
  deriving DecidableEq

/-- The four player actions (src/game.rs PlayerAction). -/
inductive PlayerAction where
  | Attack (house_pile : CardGame.HousePile) (target_player : Suit)
  | AddCardToPile (pile : PlayerPile) (card : Card)
  | SwapHousePile (a b : CardGame.HousePile)
  | DiscardHand
  deriving DecidableEq

/-- Result of a successful action (src/game.rs PlayerActionResult). -/
inductive PlayerActionResult where
  | Nominal
  | NextPlayer (p : Nat)
  | GameWon (p : Nat)
  deriving DecidableEq

/-- Per-player state (src/game.rs PlayerState). -/
structure PlayerState where
  suit : Suit
  king_pile : SpecialPile
  house_pile_1 : Option SpecialPile
  house_pile_2 : Option SpecialPile
  house_pile_3 : Option SpecialPile
  hand : Pile
  deriving DecidableEq

/-- PlayerState::initial: seeded king pile, empty slots and hand. -/
def PlayerState.initial (suit : Suit) : PlayerState :=
  { suit := suit
    king_pile := SpecialPile.new ⟨suit, .King⟩
    house_pile_1 := none
    house_pile_2 := none
    house_pile_3 := none
    hand := ⟨[]⟩ }

/-- PlayerState::get_house_pile. -/
def PlayerState.get_house_pile (ps : PlayerState) : CardGame.HousePile → Option SpecialPile
  | .One => ps.house_pile_1
  | .Two => ps.house_pile_2
  | .Three => ps.house_pile_3

/-- Functional update of one house-pile slot (the Rust code writes through
the mutable reference returned by get_mut_house_pile). -/
def PlayerState.set_house_pile (ps : PlayerState) (h : CardGame.HousePile) (v : Option SpecialPile) : PlayerState :=
  match h with
  | .One => { ps with house_pile_1 := v }
  | .Two => { ps with house_pile_2 := v }
  | .Three => { ps with house_pile_3 := v }

/-- PlayerState::swap_house_piles. -/
def PlayerState.swap_house_piles (ps : PlayerState) (a b : CardGame.HousePile) : PlayerState :=
  match a, b with
  | .One, .Two | .Two, .One =>
    { ps with house_pile_1 := ps.house_pile_2, house_pile_2 := ps.house_pile_1 }
  | .Three, .Two | .Two, .Three =>
    { ps with house_pile_3 := ps.house_pile_2, house_pile_2 := ps.house_pile_3 }
  | .One, .Three | .Three, .One =>
    { ps with house_pile_1 := ps.house_pile_3, house_pile_3 := ps.house_pile_1 }
  | .One, .One | .Two, .Two | .Three, .Three => ps

/-- PlayerState::first_house_pile: the first occupied slot in order 1,2,3
together with its contents (the Rust code returns the slot reference and
the caller takes the contents out of it). -/
def PlayerState.first_house_pile (ps : PlayerState) : Option (CardGame.HousePile × SpecialPile) :=
  match ps.house_pile_1 with
  | some p => some (.One, p)
  | none =>
    match ps.house_pile_2 with
    | some p => some (.Two, p)
    | none =>
      match ps.house_pile_3 with
      | some p => some (.Three, p)
      | none => none

/-- Total game state minus the random generator, which is factored out as
an explicit shuffle function argument to the transition functions
(src/game.rs GameState). -/
structure GameState where
  round_state : RoundState
  discard_pile : Pile
  stock_pile : Pile
  players : List PlayerState
  deriving DecidableEq

/-- In-place update of the list element at one index, as Rust indexed
assignment does; out-of-range indices leave the list unchanged. -/
def modifyAt (l : List PlayerState) (n : Nat) (f : PlayerState → PlayerState) : List PlayerState :=
  match l, n with
  | [], _ => []
  | x :: xs, 0 => f x :: xs
  | x :: xs, n + 1 => x :: modifyAt xs n f

/-- Update one player in place. -/
def GameState.modify_player (g : GameState) (i : Nat) (f : PlayerState → PlayerState) : GameState :=
  { g with players := modifyAt g.players i f }

/-- GameState::get_mut_player_by_suit, returning the index of the first
player with the given suit. -/
def GameState.get_mut_player_by_suit (g : GameState) (s : Suit) : Option Nat :=
  g.players.findIdx? (fun p => p.suit == s)

/-- GameState::evaluate_house_pile_value; none models the Rust panic on an
invalid special card. -/
def GameState.evaluate_house_pile_value (pile : SpecialPile) : Option Nat :=
  match pile.special_card.rank with
  | .Jack => some pile.cards.count
  | .Ace => some (pile.cards.count + (if pile.cards.contains_rank .Two then 1 else 0))
  | .Queen => some (pile.cards.count * 2)
  | _ => none

/-- The per-rank occurrence count used by the Queen rule; the Rust counter
is a u8, hence the mod 256 (it never wraps for game-sized piles). -/
def rank_count_u8 (cards : List Card) (r : Rank) : Nat :=
  (cards.countP (fun c => c.rank == r)) % 256

/-- GameState::can_add_to_house_pile; none models the Rust panic on an
invalid special card.  The Rust conjunction short-circuits, so a picture
or King candidate yields false without inspecting the special card. -/
def GameState.can_add_to_house_pile (pile : SpecialPile) (card : Card) : Option Bool :=
  match card.rank with
  | .King | .Jack | .Ace | .Queen => some false
  | _ =>
    match pile.special_card.rank with
    | .King | .Jack => some (card.suit == pile.special_card.suit)
    | .Ace =>
      let up := pile.cards.contains_rank card.rank.up
      let down := pile.cards.contains_rank card.rank.down
      some (!pile.cards.contains_rank card.rank && (pile.cards.is_empty || up || down))
    | .Queen =>
      if allRanks.any (fun r => rank_count_u8 pile.cards.cards r == 1) then
        some (decide (0 < rank_count_u8 pile.cards.cards card.rank))
      else
        some true
    | _ => none

/-- GameState::next_player (src/game.rs): merge the shuffled discard pile
into the stock when the stock holds fewer than five cards, deal up to five
cards, reset the phase to Attack and advance the player index cyclically.
none models the Rust panic of the modulo when there are no players. -/
def GameState.next_player (shuffle : List Card → List Card) (g : GameState) : Option GameState :=
  let g1 :=
    if g.stock_pile.count < 5 then
      { g with discard_pile := ⟨[]⟩,
               stock_pile := g.stock_pile.add_pile ⟨shuffle g.discard_pile.cards⟩ }
    else g
  let taken := g1.stock_pile.take_up_to_n 5
  if g1.players.length = 0 then none
  else
    let p := (g1.round_state.player + 1) % g1.players.length
    some { g1 with
           stock_pile := taken.2,
           round_state := { player := p, turn_state := .Attack },
           players := modifyAt g1.players p (fun ps => { ps with hand := ps.hand.add_pile taken.1 }) }

/-- The win check at the end of GameState::perform_player_action: a
successful action reports GameWon when the acting player's king pile holds
exactly nine cards, Nominal otherwise. -/
def GameState.win_check (g : GameState) (player : Nat) : Option (Except String PlayerActionResult × GameState) :=
  match g.players.get? player with
  | none => none
  | some ps =>
    some (.ok (if ps.king_pile.cards.count = 9 then .GameWon player else .Nominal), g)

/-- GameState::perform_player_action (src/game.rs lines 231-323), embedded
as a function from the pre-state to the post-state.  The Except value is
the Rust Result; the state component is the state after the call, which on
an error keeps every mutation performed before the error was raised, as
the Rust code does.  An outer none models a Rust panic (index out of
range, the unreachable King arm, or an invalid special card). -/
def GameState.perform_player_action (shuffle : List Card → List Card) (g : GameState)
    (player : Nat) (action : PlayerAction) :
    Option (Except String PlayerActionResult × GameState) :=
  if player ≠ g.round_state.player then
    some (.error "not your turn", g)
  else
    match g.round_state.turn_state, action with
    | .Attack, .Attack house_pile target_player =>
      match g.players.get? player with
      | none => none
      | some ps =>
        let g1 := g.modify_player player (fun p => p.set_house_pile house_pile none)
        match ps.get_house_pile house_pile with
        | none => some (.error "chose non existent house pile to attack", g1)
        | some attack_pile =>
          match g1.get_mut_player_by_suit target_player with
          | none => some (.error "attack target player does not exist", g1)
          | some tidx =>
            match g1.players.get? tidx with
            | none => none
            | some tps =>
              match tps.first_house_pile with
              | none =>
                -- no target pile: the taken attack pile is dropped
                g1.win_check player
              | some (slot, target_pile) =>
                let g2 := g1.modify_player tidx (fun p => p.set_house_pile slot none)
                match GameState.evaluate_house_pile_value target_pile with
                | none => none
                | some target_value =>
                  match GameState.evaluate_house_pile_value attack_pile with
                  | none => none
                  | some attack_value =>
                    if attack_value > target_value then
                      let g3 := { g2 with discard_pile := g2.discard_pile.add target_pile.special_card }
                      let g4 := g3.modify_player player
                        (fun p => { p with hand := p.hand.add_pile target_pile.cards })
                      let g5 := { g4 with discard_pile :=
                        (g4.discard_pile.add attack_pile.special_card).add_pile attack_pile.cards }
                      g5.win_check player
                    else
                      let g3 := g2.modify_player tidx (fun p => p.set_house_pile slot (some target_pile))
                      let g4 := g3.modify_player tidx
                        (fun p => { p with hand := p.hand.add_pile attack_pile.cards })
                      let g5 := { g4 with discard_pile := g4.discard_pile.add attack_pile.special_card }
                      g5.win_check player
    | .Organize, .Attack _ _ =>
      some (.error "the action is not possible at this point in the turn", g)
    | _, .AddCardToPile pile card =>
      let g1 := { g with round_state := { g.round_state with turn_state := .Organize } }
      match g1.players.get? player with
      | none => none
      | some ps =>
        let tc := ps.hand.take_card card
        let g2 := g1.modify_player player (fun p => { p with hand := tc.2 })
        if tc.1 then
          match card.rank with
          | .King => none
          | .Queen | .Jack | .Ace =>
            match pile with
            | .KingPile => some (.error "can't put picture cards on king pile", g2)
            | .HousePile hp =>
              if (ps.get_house_pile hp).isSome then
                some (.error "this pile already exists", g2)
              else
                (g2.modify_player player
                  (fun p => p.set_house_pile hp (some (SpecialPile.new card)))).win_check player
          | _ =>
            match pile with
            | .KingPile =>
              match GameState.can_add_to_house_pile ps.king_pile card with
              | none => none
              | some true =>
                (g2.modify_player player
                  (fun p => { p with king_pile :=
                    { p.king_pile with cards := p.king_pile.cards.add card } })).win_check player
              | some false =>
                some (.error "this card can not be added to this pile", g2)
            | .HousePile hp =>
              match ps.get_house_pile hp with
              | none => some (.error "this pile does not exist", g2)
              | some sp =>
                match GameState.can_add_to_house_pile sp card with
                | none => none
                | some true =>
                  (g2.modify_player player
                    (fun p => p.set_house_pile hp
                      (some { sp with cards := sp.cards.add card }))).win_check player
                | some false =>
                  some (.error "this card can not be added to this pile", g2)
        else
          g2.win_check player
    | _, .SwapHousePile a b =>
      let g1 := { g with round_state := { g.round_state with turn_state := .Organize } }
      match g1.players.get? player with
      | none => none
      | some _ =>
        (g1.modify_player player (fun p => p.swap_house_piles a b)).win_check player
    | _, .DiscardHand =>
      match g.players.get? player with
      | none => none
      | some ps =>
        let g1 := g.modify_player player (fun p => { p with hand := ⟨[]⟩ })
        let g2 := { g1 with discard_pile := g1.discard_pile.add_pile ps.hand }
        match g2.next_player shuffle with
        | none => none
        | some g3 => some (.ok (.NextPlayer g3.round_state.player), g3)

/-- The session layer's Game::perform_player_action (src/server.rs lines
88-111): it unwraps the rules-engine Result, so a rejected action is a
panic (modelled as none) rather than a returned outcome; on success the
Bool reports whether the game was won. -/
def Game.perform_player_action (shuffle : List Card → List Card) (g : GameState)
    (player : Nat) (action : PlayerAction) : Option (Bool × GameState) :=
  match GameState.perform_player_action shuffle g player action with
  | none => none
  | some (.error _, _) => none
  | some (.ok r, g1) =>
    some ((match r with | .GameWon _ => true | _ => false), g1)

/-- Total number of cards a special pile accounts for: its special card
plus the cards stacked on it. -/
def SpecialPile.total (sp : SpecialPile) : Nat := 1 + sp.cards.count

/-- Cards accounted for by an optional house-pile slot. -/
def optTotal : Option SpecialPile → Nat
  | none => 0
  | some sp => sp.total

/-- All cards a player holds: hand, king pile, and occupied house piles,
special cards included. -/
def PlayerState.total_cards (ps : PlayerState) : Nat :=
  ps.hand.count + ps.king_pile.total +
    optTotal ps.house_pile_1 + optTotal ps.house_pile_2 + optTotal ps.house_pile_3

/-- Total number of cards in the whole game: stock, discard, and every
player's cards. -/
def GameState.total_cards (g : GameState) : Nat :=
  g.stock_pile.count + g.discard_pile.count + (g.players.map PlayerState.total_cards).sum

/-! Text encoding of actions (src/cards.rs and src/game.rs FromStr and
ToString impls).  All the involved characters are ASCII, so the Rust byte
indices coincide with character positions and strings are modelled as
character lists on the parsing side. -/

/-- Suit::to_string. -/
def Suit.to_string : Suit → String
  | .Heart => "h"
  | .Spade => "s"
  | .Club => "c"
  | .Diamond => "d"
  | .Blank => "b"

/-- Rank::to_string (the character 1 denotes Ten). -/
def Rank.to_string : Rank → String
  | .King => "k"
  | .Queen => "q"
  | .Jack => "j"
  | .Ten => "1"
  | .Nine => "9"
  | .Eight => "8"
  | .Seven => "7"
  | .Six => "6"
  | .Five => "5"
  | .Four => "4"
  | .Three => "3"
  | .Two => "2"
  | .Ace => "a"

/-- Card::to_string: suit code then rank code. -/
def Card.to_string (c : Card) : String := c.suit.to_string ++ c.rank.to_string

/-- HousePile::to_string. -/
def HousePile.to_string : HousePile → String
  | .One => "1"
  | .Two => "2"
  | .Three => "3"

/-- PlayerPile::to_string. -/
def PlayerPile.to_string : PlayerPile → String
  | .KingPile => "k"
  | .HousePile h => h.to_string

/-- PlayerAction::to_string: five-character tag followed by the payload. -/
def PlayerAction.to_string : PlayerAction → String
  | .Attack hp s => "atck:" ++ hp.to_string ++ s.to_string
  | .AddCardToPile p c => "actp:" ++ p.to_string ++ c.to_string
  | .SwapHousePile a b => "swap:" ++ a.to_string ++ b.to_string
  | .DiscardHand => "dscd:"

/-- Suit::from_str on a character-list slice. -/
def Suit.from_str : List Char → Except Unit Suit
  | ['h'] => .ok .Heart
  | ['s'] => .ok .Spade
  | ['c'] => .ok .Club
  | ['d'] => .ok .Diamond
  | ['b'] => .ok .Blank
  | _ => .error ()

/-- Rank::from_str on a character-list slice. -/
def Rank.from_str : List Char → Except Unit Rank
  | ['k'] => .ok .King
  | ['q'] => .ok .Queen
  | ['j'] => .ok .Jack
  | ['1'] => .ok .Ten
  | ['9'] => .ok .Nine
  | ['8'] => .ok .Eight
  | ['7'] => .ok .Seven
  | ['6'] => .ok .Six
  | ['5'] => .ok .Five
  | ['4'] => .ok .Four
  | ['3'] => .ok .Three
  | ['2'] => .ok .Two
  | ['a'] => .ok .Ace
  | _ => .error ()

/-- Card::from_str: exactly two characters, suit code then rank code. -/
def Card.from_str (cs : List Char) : Except Unit Card :=
  if cs.length ≠ 2 then .error ()
  else
    match Suit.from_str (cs.take 1), Rank.from_str (cs.drop 1) with
    | .ok s, .ok r => .ok ⟨s, r⟩
    | _, _ => .error ()

/-- HousePile::from_str on a character-list slice. -/
def HousePile.from_str : List Char → Except Unit HousePile
  | ['1'] => .ok .One
  | ['2'] => .ok .Two
  | ['3'] => .ok .Three
  | _ => .error ()

/-- PlayerPile::from_str on a character-list slice. -/
def PlayerPile.from_str (cs : List Char) : Except Unit PlayerPile :=
  match cs with
  | ['k'] => .ok .KingPile
  | _ =>
    match HousePile.from_str cs with
    | .ok h => .ok (.HousePile h)
    | .error _ => .error ()

/-- PlayerAction::from_str (src/game.rs lines 97-134): after the length
check, the Rust code splits the input at byte index 6 and compares the
six-byte head against the five-byte tags, exactly as written here. -/
def PlayerAction.from_str (cs : List Char) : Except Unit PlayerAction :=
  if cs.length < 6 then .error ()
  else
    let head := cs.take 6
    let tail := cs.drop 6
    if head = "atck:".toList then
      if tail.length ≠ 2 then .error ()
      else
        match HousePile.from_str (tail.take 1), Suit.from_str (tail.drop 1) with
        | .ok h, .ok s => .ok (.Attack h s)
        | _, _ => .error ()
    else if head = "actp:".toList then
      if tail.length ≠ 3 then .error ()
      else
        match PlayerPile.from_str (tail.take 1), Card.from_str (tail.drop 1) with
        | .ok p, .ok c => .ok (.AddCardToPile p c)
        | _, _ => .error ()
    else if head = "swap:".toList then
      if tail.length ≠ 2 then .error ()
      else
        match HousePile.from_str (tail.take 1), HousePile.from_str (tail.drop 1) with
        | .ok a, .ok b => .ok (.SwapHousePile a b)
        | _, _ => .error ()
    else if head = "dscd:".toList ∧ tail = [] then
      .ok .DiscardHand
    else
      .error ()

/-! Concrete game states used to evaluate the transition function. -/

/-- A fresh four-player roster in the creation order of GameState::initial. -/
def basePlayers : List PlayerState :=
  [PlayerState.initial .Heart, PlayerState.initial .Spade,
   PlayerState.initial .Diamond, PlayerState.initial .Club]

/-- Five blank filler cards used as a small stock pile. -/
def blankStock : Pile :=
  ⟨[⟨.Blank, .Two⟩, ⟨.Blank, .Three⟩, ⟨.Blank, .Four⟩, ⟨.Blank, .Five⟩, ⟨.Blank, .Six⟩]⟩

/-- State where the current player holds the Queen of Hearts: playing it
onto the king pile is rejected, but only after the phase flip and the hand
removal. -/
def stPictureOnKing : GameState :=
  { round_state := ⟨0, .Attack⟩
    discard_pile := ⟨[]⟩
    stock_pile := blankStock
    players :=
      [{ PlayerState.initial .Heart with hand := ⟨[⟨.Heart, .Queen⟩]⟩ },
       PlayerState.initial .Spade, PlayerState.initial .Diamond, PlayerState.initial .Club] }

/-- The state the rejected Queen-of-Hearts placement actually leaves
behind: phase Organize and the Queen gone from the hand. -/
def stPictureOnKingPost : GameState :=
  { stPictureOnKing with
    round_state := ⟨0, .Organize⟩
    players :=
      [PlayerState.initial .Heart,
       PlayerState.initial .Spade, PlayerState.initial .Diamond, PlayerState.initial .Club] }

/-- State where the current player (Hearts) owns one house pile (a Jack of
Hearts pile with two cards on it) and the attack target (Spades) owns
none: the configuration of a wasted attack. -/
def stWasted : GameState :=
  { round_state := ⟨0, .Attack⟩
    discard_pile := ⟨[]⟩
    stock_pile := blankStock
    players :=
      [{ PlayerState.initial .Heart with
         house_pile_1 := some ⟨⟨.Heart, .Jack⟩, ⟨[⟨.Heart, .Two⟩, ⟨.Spade, .Three⟩]⟩⟩ },
       PlayerState.initial .Spade, PlayerState.initial .Diamond, PlayerState.initial .Club] }

/-- The state after the wasted attack: the attacker's pile is gone from
the game and nothing was added anywhere else. -/
def stWastedPost : GameState :=
  { stWasted with players := basePlayers }

/-- State where the current player holds the Five of Diamonds nowhere: an
AddCardToPile naming it is silently accepted. -/
def stCardMissing : GameState :=
  { round_state := ⟨0, .Attack⟩
    discard_pile := ⟨[]⟩
    stock_pile := blankStock
    players :=
      [{ PlayerState.initial .Heart with hand := ⟨[⟨.Heart, .Two⟩]⟩ },
       PlayerState.initial .Spade, PlayerState.initial .Diamond, PlayerState.initial .Club] }

/-- What the silent acceptance leaves behind: only the phase changed. -/
def stCardMissingPost : GameState :=
  { stCardMissing with round_state := ⟨0, .Organize⟩ }

/-- State one card short of the win threshold: the Heart player's king
pile holds eight cards and the Two of Hearts is in hand. -/
def stNearWin : GameState :=
  { round_state := ⟨0, .Attack⟩
    discard_pile := ⟨[]⟩
    stock_pile := blankStock
    players :=
      [{ PlayerState.initial .Heart with
         king_pile := ⟨⟨.Heart, .King⟩,
           ⟨[⟨.Heart, .Three⟩, ⟨.Heart, .Four⟩, ⟨.Heart, .Five⟩, ⟨.Heart, .Six⟩,
             ⟨.Heart, .Seven⟩, ⟨.Heart, .Eight⟩, ⟨.Heart, .Nine⟩, ⟨.Heart, .Ten⟩]⟩⟩
         hand := ⟨[⟨.Heart, .Two⟩]⟩ },
       PlayerState.initial .Spade, PlayerState.initial .Diamond, PlayerState.initial .Club] }

/-- stNearWin after the winning placement: nine cards on the king pile,
GameWon was reported, and the state is still live. -/
def stJustWon : GameState :=
  { stNearWin with
    round_state := ⟨0, .Organize⟩
    players :=
      [{ PlayerState.initial .Heart with
         king_pile := ⟨⟨.Heart, .King⟩,
           ⟨[⟨.Heart, .Three⟩, ⟨.Heart, .Four⟩, ⟨.Heart, .Five⟩, ⟨.Heart, .Six⟩,
             ⟨.Heart, .Seven⟩, ⟨.Heart, .Eight⟩, ⟨.Heart, .Nine⟩, ⟨.Heart, .Ten⟩,
             ⟨.Heart, .Two⟩]⟩⟩ },
       PlayerState.initial .Spade, PlayerState.initial .Diamond, PlayerState.initial .Club] }

/-- stJustWon after a further DiscardHand: the next player was dealt the
whole five-card stock, proving the game went on after GameWon. -/
def stAfterWin : GameState :=
  { stJustWon with
    round_state := ⟨1, .Attack⟩
    stock_pile := ⟨[]⟩
    players :=
      [{ PlayerState.initial .Heart with
         king_pile := ⟨⟨.Heart, .King⟩,
           ⟨[⟨.Heart, .Three⟩, ⟨.Heart, .Four⟩, ⟨.Heart, .Five⟩, ⟨.Heart, .Six⟩,
             ⟨.Heart, .Seven⟩, ⟨.Heart, .Eight⟩, ⟨.Heart, .Nine⟩, ⟨.Heart, .Ten⟩,
             ⟨.Heart, .Two⟩]⟩⟩ },
       { PlayerState.initial .Spade with hand := blankStock },
       PlayerState.initial .Diamond, PlayerState.initial .Club] }

/-- State where the current Heart player holds the Two of Hearts: the king
pile accepts it even though it is not a King. -/
def stTwoInHand : GameState :=
  { round_state := ⟨0, .Attack⟩
    discard_pile := ⟨[]⟩
    stock_pile := ⟨[]⟩
    players :=
      [{ PlayerState.initial .Heart with hand := ⟨[⟨.Heart, .Two⟩]⟩ },
       PlayerState.initial .Spade, PlayerState.initial .Diamond, PlayerState.initial .Club] }

/-- stTwoInHand after the Two of Hearts lands on the king pile. -/
def stTwoOnKing : GameState :=
  { stTwoInHand with
    round_state := ⟨0, .Organize⟩
    players :=
      [{ PlayerState.initial .Heart with
         king_pile := ⟨⟨.Heart, .King⟩, ⟨[⟨.Heart, .Two⟩]⟩⟩ },
       PlayerState.initial .Spade, PlayerState.initial .Diamond, PlayerState.initial .Club] }

/-! Helper lemmas about the embedding. -/

theorem modifyAt_eq_self (l : List PlayerState) (n : Nat) (f : PlayerState → PlayerState)
    (h : ∀ x, l.get? n = some x → f x = x) : modifyAt l n f = l := by
  induction l generalizing n with
  | nil => rfl
  | cons x xs ih =>
    cases n with
    | zero => simp [modifyAt, h x rfl]
    | succ m =>
      simp only [modifyAt, List.cons.injEq, true_and]
      exact ih m (fun y hy => h y hy)

theorem modifyAt_length (l : List PlayerState) (n : Nat) (f : PlayerState → PlayerState) :
    (modifyAt l n f).length = l.length := by
  induction l generalizing n with
  | nil => rfl
  | cons x xs ih => cases n with
    | zero => rfl
    | succ m => simp [modifyAt, ih]

theorem modifyAt_get_same (l : List PlayerState) (n : Nat) (f : PlayerState → PlayerState) :
    (modifyAt l n f).get? n = (l.get? n).map f := by
  induction l generalizing n with
  | nil => rfl
  | cons x xs ih => cases n with
    | zero => rfl
    | succ m => simpa [modifyAt] using ih m

theorem modifyAt_getElem_same (l : List PlayerState) (n : Nat) (f : PlayerState → PlayerState) :
    (modifyAt l n f)[n]? = (l[n]?).map f := by
  have h1 := modifyAt_get_same l n f
  rwa [List.get?_eq_getElem?, List.get?_eq_getElem?] at h1

theorem set_house_pile_none_of_none (ps : PlayerState) (hp : HousePile)
    (h : ps.get_house_pile hp = none) : ps.set_house_pile hp none = ps := by
  cases ps
  cases hp <;> simp_all [PlayerState.get_house_pile, PlayerState.set_house_pile]

theorem take_card_of_contains_false (p : Pile) (c : Card)
    (h : p.cards.contains c = false) : p.take_card c = (false, p) := by
  have hnm : c ∉ p.cards := by
    intro hm
    have helem : List.elem c p.cards = true := List.elem_eq_true_of_mem hm
    have hcf : List.elem c p.cards = false := h
    rw [helem] at hcf
    exact Bool.true_eq_false.mp hcf
  have : p.cards.erase c = p.cards := List.erase_of_not_mem hnm
  simp [Pile.take_card, h, this, hnm]

theorem win_check_ne_error (g : GameState) (p : Nat) (e : String) (g1 : GameState) :
    GameState.win_check g p ≠ some (.error e, g1) := by
  unfold GameState.win_check
  split <;> simp

theorem perform_not_your_turn_aux (shuffle : List Card → List Card) (g : GameState)
    (p : Nat) (a : PlayerAction) (h : p ≠ g.round_state.player) :
    GameState.perform_player_action shuffle g p a = some (.error "not your turn", g) := by
  simp [GameState.perform_player_action, h]

theorem mem_allRanks (r : Rank) : r ∈ allRanks := by
  cases r <;> simp [allRanks]

/-! Claim theorems. -/

/-- Claim C7: an action submitted by any player other than the one
recorded in round_state is rejected with the NotYourTurn error and the
state after the call equals the state before it, for every game state and
every action. -/
theorem C7_not_your_turn (shuffle : List Card → List Card) (g : GameState)
    (p : Nat) (a : PlayerAction) (h : p ≠ g.round_state.player) :
    GameState.perform_player_action shuffle g p a = some (.error "not your turn", g) :=
  perform_not_your_turn_aux shuffle g p a h

/-- Claim C7 witness: player 3 acting while player 0 is current. -/
theorem C7_not_your_turn_witness :
    (3 : Nat) ≠ stWasted.round_state.player ∧
      GameState.perform_player_action id stWasted 3 .DiscardHand =
        some (.error "not your turn", stWasted) :=
  ⟨by decide, C7_not_your_turn id stWasted 3 .DiscardHand (by decide)⟩

/-- Claim C10: the session layer's Game::perform_player_action unwraps the
rules-engine Result, so on every game state a submission from a non-current
seat makes it panic (modelled as none) instead of returning a rejected
outcome; the panic is reachable through this public action entry point for
every reachable state, since the rejection does not depend on the state. -/
theorem C10_session_unwrap_panics (shuffle : List Card → List Card) (g : GameState)
    (p : Nat) (a : PlayerAction) (h : p ≠ g.round_state.player) :
    Game.perform_player_action shuffle g p a = none := by
  simp [Game.perform_player_action, perform_not_your_turn_aux shuffle g p a h]

/-- Claim C10 witness: the concrete panic at a concrete state. -/
theorem C10_session_unwrap_panics_witness :
    (3 : Nat) ≠ stWasted.round_state.player ∧
      Game.perform_player_action id stWasted 3 .DiscardHand = none :=
  ⟨by decide, C10_session_unwrap_panics id stWasted 3 .DiscardHand (by decide)⟩

/-- Claim C2, failing evaluation: from a reachable configuration (the
current player owns one house pile, the Spade player owns none), the
accepted wasted attack returns Ok yet three cards (the attack pile's
special card plus its two cards) vanish from the total count. -/
theorem C2_wasted_attack_loses_cards :
    GameState.perform_player_action id stWasted 0 (.Attack .One .Spade) =
        some (.ok .Nominal, stWastedPost) ∧
      stWastedPost.total_cards + 3 = stWasted.total_cards := by
  decide

/-- Claim C3, failing evaluation: the wasted attack is accepted, but the
attacker's pile is not moved to the discard pile: the discard pile is
unchanged and the pile's slot is simply emptied, its cards dropped. -/
theorem C3_wasted_attack_not_discarded :
    GameState.perform_player_action id stWasted 0 (.Attack .One .Spade) =
        some (.ok .Nominal, stWastedPost) ∧
      stWastedPost.discard_pile = stWasted.discard_pile ∧
      (stWastedPost.players.get? 0).map PlayerState.house_pile_1 = some none := by
  decide

/-- Claim C9, failing evaluation: parsing the serialization of any action
fails, because PlayerAction::from_str splits its input at byte index 6 and
compares the six-byte head against the five-byte tags, so no arm can ever
match (the serialized DiscardHand, five bytes long, is already rejected by
the length check). -/
theorem C9_roundtrip_always_fails (a : PlayerAction) :
    PlayerAction.from_str a.to_string.toList = .error () := by
  cases a with
  | Attack hp s => cases hp <;> cases s <;> decide
  | AddCardToPile p c =>
    obtain ⟨cs, cr⟩ := c
    cases p with
    | KingPile => cases cs <;> cases cr <;> decide
    | HousePile h => cases h <;> cases cs <;> cases cr <;> decide
  | SwapHousePile a b => cases a <;> cases b <;> decide
  | DiscardHand => decide

/-- Claim C1 counterexample: playing the Queen of Hearts onto the king
pile is rejected, yet the returned state differs from the input state: the
phase flipped to Organize and the Queen left the hand before the check. -/
theorem C1_counterexample :
    GameState.perform_player_action id stPictureOnKing 0
        (.AddCardToPile .KingPile ⟨.Heart, .Queen⟩) =
      some (.error "can't put picture cards on king pile", stPictureOnKingPost) ∧
    stPictureOnKingPost ≠ stPictureOnKing := by
  decide

/-- Claim C4 counterexample: an AddCardToPile naming the Five of Diamonds,
which is not in the acting player's hand, is not rejected: it returns Ok
Nominal, and the state is not left unchanged (the phase flipped). -/
theorem C4_counterexample :
    GameState.perform_player_action id stCardMissing 0
        (.AddCardToPile .KingPile ⟨.Diamond, .Five⟩) =
      some (.ok .Nominal, stCardMissingPost) ∧
    stCardMissingPost ≠ stCardMissing := by
  decide

/-- Claim C5 counterexample: the placement that brings the king pile to
nine cards yields GameWon, and the very next action on the same game, a
DiscardHand by the same player, is still processed and succeeds. -/
theorem C5_counterexample :
    GameState.perform_player_action id stNearWin 0
        (.AddCardToPile .KingPile ⟨.Heart, .Two⟩) =
      some (.ok (.GameWon 0), stJustWon) ∧
    GameState.perform_player_action id stJustWon 0 .DiscardHand =
      some (.ok (.NextPlayer 1), stAfterWin) := by
  decide

/-- Claim C6 counterexample: the Two of Hearts, which is not a King, is
accepted onto the Heart player's king pile and the pile grows by it. -/
theorem C6_counterexample :
    GameState.perform_player_action id stTwoInHand 0
        (.AddCardToPile .KingPile ⟨.Heart, .Two⟩) =
      some (.ok .Nominal, stTwoOnKing) ∧
    (stTwoOnKing.players.get? 0).map (fun q => q.king_pile.cards) =
      some ⟨[⟨.Heart, .Two⟩]⟩ := by
  decide

/-- Claim C4 amended: an AddCardToPile whose card is not in the acting
player's hand is silently accepted: it returns Ok (Nominal, or GameWon if
the king pile already holds nine cards), and the only state change is the
turn phase being set to Organize. -/
theorem C4_amended_silent_accept (shuffle : List Card → List Card) (g : GameState)
    (pl : PlayerPile) (c : Card) (ps : PlayerState)
    (hget : g.players.get? g.round_state.player = some ps)
    (hc : ps.hand.cards.contains c = false) :
    GameState.perform_player_action shuffle g g.round_state.player (.AddCardToPile pl c) =
      some (.ok (if ps.king_pile.cards.count = 9
                 then .GameWon g.round_state.player else .Nominal),
        { g with round_state := { g.round_state with turn_state := .Organize } }) := by
  have htc : ps.hand.take_card c = (false, ps.hand) := take_card_of_contains_false ps.hand c hc
  have hmod : modifyAt g.players g.round_state.player
      (fun p => { p with hand := ps.hand }) = g.players := by
    apply modifyAt_eq_self
    intro x hx
    rw [hget] at hx
    cases hx
    rfl
  unfold GameState.perform_player_action
  simp only [ne_eq, not_true_eq_false, if_false]
  cases ht : g.round_state.turn_state <;>
    simp only [GameState.modify_player, hget, htc, hmod, GameState.win_check] <;>
    simp [hget]

/-- Claim C4 amended witness: the concrete silent acceptance. -/
theorem C4_amended_silent_accept_witness :
    GameState.perform_player_action id stCardMissing 0
        (.AddCardToPile .KingPile ⟨.Diamond, .Five⟩) =
      some (.ok .Nominal, stCardMissingPost) :=
  C4_amended_silent_accept id stCardMissing .KingPile ⟨.Diamond, .Five⟩ _ rfl rfl

/-- Claim C5 amended: GameWon is reported on the action that brings the
king pile to nine cards, but the game has no terminal state: from every
state whatsoever, in particular one already reported won, a DiscardHand by
the current player is still processed and succeeds, advancing the round.
The roster bound keeps the Nat model faithful to the Rust u8 index
arithmetic, and holds for every real roster of at most four players. -/
theorem C5_amended_no_terminal_state (shuffle : List Card → List Card) (g : GameState)
    (hlt : g.round_state.player < g.players.length) (_hsz : g.players.length ≤ 255) :
    ∃ g1, GameState.perform_player_action shuffle g g.round_state.player .DiscardHand =
      some (.ok (.NextPlayer ((g.round_state.player + 1) % g.players.length)), g1) := by
  obtain ⟨ps, hget⟩ : ∃ ps, g.players.get? g.round_state.player = some ps :=
    ⟨_, List.get?_eq_get hlt⟩
  have hlen : ∀ f, (modifyAt g.players g.round_state.player f).length = g.players.length :=
    fun f => modifyAt_length g.players g.round_state.player f
  unfold GameState.perform_player_action
  simp only [ne_eq, not_true_eq_false, if_false]
  cases ht : g.round_state.turn_state <;>
    by_cases hstock : g.stock_pile.count < 5 <;>
    simp only [hget, GameState.next_player, GameState.modify_player, hstock,
      ite_true, ite_false] <;>
    rw [if_neg (by rw [hlen]; omega)] <;>
    simp only [hlen] <;>
    exact ⟨_, rfl⟩

/-- Claim C5 amended witness: DiscardHand still succeeds on the state that
was just reported won. -/
theorem C5_amended_no_terminal_state_witness :
    stJustWon.round_state.player < stJustWon.players.length ∧
      stJustWon.players.length ≤ 255 ∧
      ∃ g1, GameState.perform_player_action id stJustWon stJustWon.round_state.player
          .DiscardHand =
        some (.ok (.NextPlayer ((stJustWon.round_state.player + 1) % stJustWon.players.length)), g1) :=
  ⟨by decide, by decide, C5_amended_no_terminal_state id stJustWon (by decide) (by decide)⟩

/-- Claim C6 amended: the king pile grows only with same-suit cards of
rank Two through Ten.  For a candidate that is not a King (a King in hand
would make the engine panic in its unreachable arm), an AddCardToPile
targeting the king pile adds the card to it exactly when the card is in
the acting player's hand, is no picture card, and matches the suit of the
king pile's seed card. -/
theorem C6_amended_king_pile_growth (shuffle : List Card → List Card) (g : GameState)
    (c : Card) (ps : PlayerState)
    (hget : g.players.get? g.round_state.player = some ps)
    (hseed : ps.king_pile.special_card.rank = .King)
    (hnk : c.rank ≠ .King) :
    ((∃ r g1, GameState.perform_player_action shuffle g g.round_state.player
          (.AddCardToPile .KingPile c) = some (.ok r, g1) ∧
        (g1.players.get? g.round_state.player).map (fun q => q.king_pile.cards) =
          some (ps.king_pile.cards.add c))
     ↔ (ps.hand.cards.contains c = true ∧ c.rank ≠ .Queen ∧ c.rank ≠ .Jack ∧
        c.rank ≠ .Ace ∧ c.suit = ps.king_pile.special_card.suit)) := by
  have hne : ∀ q : Pile, q ≠ q.add c := by
    intro q hq
    have := congrArg (fun p : Pile => p.cards.length) hq
    simp [Pile.add] at this
  have hgetE : g.players[g.round_state.player]? = some ps := by
    rw [← List.get?_eq_getElem?]
    exact hget
  obtain ⟨cs, cr⟩ := c
  unfold GameState.perform_player_action
  simp only [ne_eq, not_true_eq_false, if_false]
  cases hcc : ps.hand.cards.contains ⟨cs, cr⟩ with
  | false =>
    have htc := take_card_of_contains_false ps.hand ⟨cs, cr⟩ hcc
    have hmod : modifyAt g.players g.round_state.player
        (fun p => { p with hand := ps.hand }) = g.players := by
      apply modifyAt_eq_self
      intro x hx
      rw [hget] at hx
      cases hx
      rfl
    cases ht : g.round_state.turn_state <;>
    · simp only [hget, htc, GameState.modify_player, hmod, GameState.win_check]
      apply iff_of_false
      · rintro ⟨r, g1, heq, hmap⟩
        injection heq with heq
        injection heq with heqr heqg
        subst heqg
        obtain ⟨a, ha1, ha2⟩ : ∃ a, g.players[g.round_state.player]? = some a ∧
            a.king_pile.cards = ps.king_pile.cards.add ⟨cs, cr⟩ := by simpa using hmap
        rw [hgetE] at ha1
        injection ha1 with ha1
        subst ha1
        exact hne ps.king_pile.cards ha2
      · rintro ⟨h1, -⟩
        exact Bool.false_ne_true h1
  | true =>
    cases cr with
    | King => exact absurd rfl hnk
    | Queen | Jack | Ace =>
      cases ht : g.round_state.turn_state <;>
      · simp only [hget, Pile.take_card, hcc, GameState.modify_player]
        apply iff_of_false
        · rintro ⟨r, g1, heq, -⟩
          simp at heq
        · rintro ⟨-, h2, h3, h4, -⟩
          simp_all
    | _ =>
      by_cases hsuit : cs = ps.king_pile.special_card.suit
      · subst hsuit
        cases ht : g.round_state.turn_state <;>
        · simp only [hget, Pile.take_card, hcc, GameState.modify_player,
            GameState.can_add_to_house_pile, hseed, GameState.win_check,
            modifyAt_get_same, beq_self_eq_true]
          apply iff_of_true
          · refine ⟨_, _, rfl, ?_⟩
            simp [GameState.modify_player, modifyAt_getElem_same, hgetE]
          · exact ⟨by trivial, by decide, by decide, by decide, by trivial⟩
      · have hbeq : (cs == ps.king_pile.special_card.suit) = false :=
          beq_eq_false_iff_ne.mpr hsuit
        cases ht : g.round_state.turn_state <;>
        · simp only [hget, Pile.take_card, hcc, GameState.modify_player,
            GameState.can_add_to_house_pile, hseed, hbeq]
          apply iff_of_false
          · rintro ⟨r, g1, heq, -⟩
            simp at heq
          · rintro ⟨-, -, -, -, h5⟩
            exact hsuit h5

/-- Claim C6 amended witness: the growth condition instantiated at the Two
of Hearts in the Heart player's hand. -/
theorem C6_amended_king_pile_growth_witness :
    ((∃ r g1, GameState.perform_player_action id stTwoInHand stTwoInHand.round_state.player
          (.AddCardToPile .KingPile ⟨.Heart, .Two⟩) = some (.ok r, g1) ∧
        (g1.players.get? stTwoInHand.round_state.player).map (fun q => q.king_pile.cards) =
          some ((PlayerState.initial .Heart).king_pile.cards.add ⟨.Heart, .Two⟩))
     ↔ ((⟨[⟨.Heart, .Two⟩]⟩ : Pile).cards.contains ⟨.Heart, .Two⟩ = true ∧
        (⟨.Heart, .Two⟩ : Card).rank ≠ .Queen ∧ (⟨.Heart, .Two⟩ : Card).rank ≠ .Jack ∧
        (⟨.Heart, .Two⟩ : Card).rank ≠ .Ace ∧
        (⟨.Heart, .Two⟩ : Card).suit = (PlayerState.initial .Heart).king_pile.special_card.suit)) :=
  C6_amended_king_pile_growth id stTwoInHand ⟨.Heart, .Two⟩
    { PlayerState.initial .Heart with hand := ⟨[⟨.Heart, .Two⟩]⟩ } rfl rfl (by decide)

/-- Claim C8: for a Queen-special pile and a candidate that is neither a
King nor a picture card, the legality predicate accepts the candidate
exactly when the presence of some rank occurring exactly once in the pile
implies the candidate's rank already occurs there.  The size bound keeps
the u8 occurrence counters of the source exact; any real pile is far
smaller. -/
theorem C8_queen_rule (pile : SpecialPile) (c : Card)
    (hq : pile.special_card.rank = .Queen)
    (h1 : c.rank ≠ .King) (h2 : c.rank ≠ .Queen) (h3 : c.rank ≠ .Jack) (h4 : c.rank ≠ .Ace)
    (hsz : pile.cards.cards.length ≤ 255) :
    (GameState.can_add_to_house_pile pile c = some true ↔
      ((∃ r : Rank, pile.cards.cards.countP (fun x => x.rank == r) = 1) →
        0 < pile.cards.cards.countP (fun x => x.rank == c.rank))) := by
  have hcnt : ∀ r, rank_count_u8 pile.cards.cards r =
      pile.cards.cards.countP (fun x => x.rank == r) := by
    intro r
    have hle : pile.cards.cards.countP (fun x => x.rank == r) ≤ 255 :=
      le_trans (List.countP_le_length _) hsz
    exact Nat.mod_eq_of_lt (lt_of_le_of_lt hle (by omega))
  have hany : (allRanks.any (fun r => rank_count_u8 pile.cards.cards r == 1) = true) ↔
      (∃ r : Rank, pile.cards.cards.countP (fun x => x.rank == r) = 1) := by
    rw [List.any_eq_true]
    constructor
    · rintro ⟨r, -, hr⟩
      refine ⟨r, ?_⟩
      have hr2 : rank_count_u8 pile.cards.cards r = 1 := by simpa using hr
      rwa [hcnt r] at hr2
    · rintro ⟨r, hr⟩
      exact ⟨r, mem_allRanks r, by rw [hcnt r, hr]; rfl⟩
  obtain ⟨cs, cr⟩ := c
  cases cr
  all_goals (try exact absurd rfl h1)
  all_goals (try exact absurd rfl h2)
  all_goals (try exact absurd rfl h3)
  all_goals (try exact absurd rfl h4)
  all_goals (
    simp only [GameState.can_add_to_house_pile, hq]
    by_cases ha : allRanks.any (fun r => rank_count_u8 pile.cards.cards r == 1) = true
    · rw [if_pos ha]
      have hex := hany.mp ha
      simp only [Option.some.injEq, decide_eq_true_eq, hcnt]
      constructor
      · intro hpos _
        exact hpos
      · intro himp
        exact himp hex
    · rw [if_neg ha]
      simp only [Option.some.injEq, true_iff]
      intro hex
      exact absurd (hany.mpr hex) ha)

/-- Claim C8 witness: the Queen rule at a one-card Queen pile. -/
theorem C8_queen_rule_witness :
    (GameState.can_add_to_house_pile ⟨⟨.Heart, .Queen⟩, ⟨[⟨.Spade, .Two⟩]⟩⟩ ⟨.Club, .Five⟩ =
        some true ↔
      ((∃ r : Rank, (Pile.mk [⟨.Spade, .Two⟩]).cards.countP (fun x => x.rank == r) = 1) →
        0 < (Pile.mk [⟨.Spade, .Two⟩]).cards.countP
          (fun x => x.rank == (⟨.Club, .Five⟩ : Card).rank))) :=
  C8_queen_rule ⟨⟨.Heart, .Queen⟩, ⟨[⟨.Spade, .Two⟩]⟩⟩ ⟨.Club, .Five⟩ rfl
    (by decide) (by decide) (by decide) (by decide) (by decide)

/-- Claim C1 amended: only the rejections raised before any mutation leave
the state unchanged — acting out of turn, attacking in the Organize phase,
and attacking from an empty house-pile slot.  (The counterexample shows
the other rejections can leave mutations behind: an attack on a
nonexistent target player has already removed the attacker's pile, and a
rejected AddCardToPile has already flipped the phase and removed the card
from the hand.) -/
theorem C1_amended_pre_mutation_rejections (shuffle : List Card → List Card)
    (g g1 : GameState) (p : Nat) (a : PlayerAction) (e : String)
    (h : GameState.perform_player_action shuffle g p a = some (.error e, g1))
    (he : e = "not your turn" ∨ e = "the action is not possible at this point in the turn" ∨
      e = "chose non existent house pile to attack") :
    g1 = g := by
  by_cases hp : p = g.round_state.player
  · have hdismiss : ∀ (s : String) (X : GameState),
        s ≠ "not your turn" → s ≠ "the action is not possible at this point in the turn" →
        s ≠ "chose non existent house pile to attack" →
        ¬(some ((Except.error s : Except String PlayerActionResult), X) = some (.error e, g1)) := by
      intro s X h1 h2 h3 hxx
      injection hxx with hxx
      have hse : Except.error s = (Except.error e : Except String PlayerActionResult) :=
        congrArg Prod.fst hxx
      injection hse with hse
      rcases he with rfl | rfl | rfl
      exacts [h1 hse, h2 hse, h3 hse]
    have hok : ∀ (r : PlayerActionResult) (X : GameState),
        ¬(some ((Except.ok r : Except String PlayerActionResult), X) = some (.error e, g1)) := by
      intro r X hxx
      injection hxx with hxx
      have hre : Except.ok r = (Except.error e : Except String PlayerActionResult) :=
        congrArg Prod.fst hxx
      exact Except.noConfusion hre
    subst hp
    unfold GameState.perform_player_action at h
    simp only [ne_eq, not_true_eq_false, if_false] at h
    rcases a with ⟨hp', s⟩ | ⟨pl, c⟩ | ⟨x, y⟩ | _
    · -- Attack action
      cases ht : g.round_state.turn_state <;> simp only [ht] at h
      · -- Attack phase
        cases hps : g.players.get? g.round_state.player with
        | none =>
          simp only [hps] at h
          exact Option.noConfusion h
        | some ps =>
          simp only [hps] at h
          cases hslot : ps.get_house_pile hp' with
          | none =>
            -- the empty-slot rejection: the take wrote none over none
            simp only [hslot] at h
            injection h with h2
            have hg1 : (g.modify_player g.round_state.player
                (fun q => q.set_house_pile hp' none)) = g1 := congrArg Prod.snd h2
            rw [← hg1]
            unfold GameState.modify_player
            have hmm : modifyAt g.players g.round_state.player
                (fun q => q.set_house_pile hp' none) = g.players := by
              apply modifyAt_eq_self
              intro x hx
              rw [hps] at hx
              injection hx with hx
              subst hx
              exact set_house_pile_none_of_none _ _ hslot
            rw [hmm]
          | some ap =>
            simp only [hslot] at h
            repeat' (first
              | exact absurd h (win_check_ne_error _ _ _ _)
              | exact Option.noConfusion h
              | exact absurd h (hok _ _)
              | exact absurd h (hdismiss _ _ (by decide) (by decide) (by decide))
              | split at h)
      · -- Organize phase: the wrong-phase rejection returns g itself
        injection h with h2
        exact (congrArg Prod.snd h2).symm
    · -- AddCardToPile action: every rejection string differs from the three
      cases ht : g.round_state.turn_state <;> simp only [ht] at h <;>
        repeat' (first
          | exact absurd h (win_check_ne_error _ _ _ _)
          | exact Option.noConfusion h
          | exact absurd h (hok _ _)
          | exact absurd h (hdismiss _ _ (by decide) (by decide) (by decide))
          | split at h)
    · -- SwapHousePile action: never errors
      cases ht : g.round_state.turn_state <;> simp only [ht] at h <;>
        repeat' (first
          | exact absurd h (win_check_ne_error _ _ _ _)
          | exact Option.noConfusion h
          | exact absurd h (hok _ _)
          | split at h)
    · -- DiscardHand action: never errors
      cases ht : g.round_state.turn_state <;> simp only [ht] at h <;>
        repeat' (first
          | exact Option.noConfusion h
          | exact absurd h (hok _ _)
          | split at h)
  · rw [perform_not_your_turn_aux shuffle g p a hp] at h
    injection h with h2
    exact (congrArg Prod.snd h2).symm

/-- Claim C1 amended witness: a pre-mutation rejection (out of turn) at a
concrete state, whose post-state the theorem identifies with the input. -/
theorem C1_amended_pre_mutation_rejections_witness :
    GameState.perform_player_action id stWasted 2 .DiscardHand =
        some (.error "not your turn", stWasted) ∧ stWasted = stWasted :=
  ⟨by decide,
   C1_amended_pre_mutation_rejections id stWasted stWasted 2 .DiscardHand
     "not your turn" (by decide) (Or.inl rfl)⟩

end CardGame
